import Mathlib

/-!
# Verification of the Z-Way client (`src/modules/zway.py`)

Shallow embedding of the single-file Python 2 client `zway.py` and proofs of
the specification claims about it.

Modelling conventions:

* Python floats are modelled as rationals (`ℚ`); `float(...)` on strings is
  modelled by `Zway.pyFloat`, a decimal-literal parser, and `int(...)` on
  strings by `Zway.pyIntOfString`.
* Python 2 byte strings are modelled as Lean `String`s together with a flag
  recording whether the bytes are valid UTF-8 (`Zway.Raw`); this is the only
  property of raw bytes the program's control flow depends on (the implicit
  decode in `device_id_base + '_' + device_type` raises `UnicodeDecodeError`
  exactly when the bytes do not decode).
* The mutable object state (`self.timeout`, `self.devices`, `self.cookie`,
  `self.base_url`) is an explicit `Zway.ServerState`; methods are state
  transformers `ServerState → Except Err α × ServerState`, so that state
  mutated before an exception is raised remains visible to the caller,
  exactly as for in-place mutation in Python.
* The network is an oracle: `Zway.Outcome` sequences model the per-attempt
  results of `requests.get` inside `_make_request`, and `Zway.Net` models
  the per-command result of an (already retried) `_make_request` call as
  seen by the higher-level methods.
* Python dicts are modelled as insertion-ordered association lists; iteration
  order over a dict (arbitrary in Python 2) is the order chosen by the oracle.
-/

namespace Zway

/-- Exceptions raised by the client, following `zway.py`. -/
inductive Err where
  /-- `Exception("server did not respond, connection is lost")`, line 198. -/
  | connectionLost : Err
  /-- `Exception("server Timeout")`, line 202. -/
  | serverTimeout : Err
  /-- Python `KeyError` from a missing dict key. -/
  | keyError (key : String) : Err
  /-- Python `ValueError`, e.g. from `float(...)`/`int(...)` on bad text. -/
  | valueError (text : String) : Err
  /-- Python `TypeError`, e.g. from indexing a non-dict JSON value. -/
  | typeError : Err
  /-- Python 2 `UnicodeDecodeError` from implicitly decoding invalid bytes. -/
  | unicodeDecodeError : Err
  /-- Any other exception (the oracle may inject one). -/
  | other (message : String) : Err
deriving DecidableEq, Repr

/-- The content of an HTTP response: the text of the body together with a
flag recording whether its bytes are valid UTF-8 (see module docstring). -/
structure Raw where
  text : String
  validUtf8 : Bool
deriving DecidableEq, Repr

/-- The inner per-channel dictionary `data_dict` built at lines 89-98:
`{'instance_num', 'command_class', 'data_num', 'url_suffix', 'type'}`. -/
structure DataDict where
  instance_num : String
  command_class : String
  data_num : String
  url_suffix : String
  type : String
deriving DecidableEq, Repr

/-- One registry entry `self.devices[device_id]`: a dict holding `'data'`
(always, line 102) and possibly `'name'` (line 114; absent when the
name-construction `try` at lines 107-112 fails and `continue`s). -/
structure DeviceEntry where
  data : DataDict
  name : Option String
deriving DecidableEq, Repr

/-- `self.devices`: dict from device id to entry, as an insertion-ordered
association list. -/
abbrev Registry := List (String × DeviceEntry)

/-- The mutable state of a `Server` object. -/
structure ServerState where
  /-- `self.timeout`, seconds (line 48 sets `5.0`). -/
  timeout : ℚ
  /-- `self.base_url` (line 49). -/
  base_url : String
  /-- `self.devices`. -/
  devices : Registry
  /-- `self.cookie`: `None` or a cookie jar (modelled opaquely as a string). -/
  cookie : Option String
deriving DecidableEq, Repr

/-- Methods are state transformers; an `Except.error` result models a raised
exception, and the returned state is the object state at raise time (Python
mutations are in place, so they survive the exception). -/
abbrev M (α : Type) := ServerState → Except Err α × ServerState

/-- Equality of `Except` results is decidable componentwise (used so witness
statements evaluate by `decide`). -/
instance {ε : Type u} {α : Type v} [DecidableEq ε] [DecidableEq α] :
    DecidableEq (Except ε α) := fun x y =>
  match x, y with
  | .ok a, .ok b => decidable_of_iff (a = b) (by simp)
  | .error e, .error f => decidable_of_iff (e = f) (by simp)
  | .ok _, .error _ => isFalse (by simp)
  | .error _, .ok _ => isFalse (by simp)

/-! ## Python numeric conversions -/

/-- Value of a decimal digit character. -/
def digitVal (c : Char) : ℕ := c.toNat - '0'.toNat

/-- Value of a list of decimal digits, most significant first. -/
def digitsVal (l : List Char) : ℕ := l.foldl (fun acc c => acc * 10 + digitVal c) 0

/-- Split a leading run of decimal digits. -/
def takeDigits (l : List Char) : List Char × List Char :=
  match l with
  | [] => ([], [])
  | c :: rest =>
      if c.isDigit then
        let (ds, r) := takeDigits rest
        (c :: ds, r)
      else ([], l)

/-- Parse the body of a Python float literal: `digits [. digits] [e [sign] digits]`
with at least one digit before or after the point.  Models CPython's
`float(str)` on finite decimal literals (`inf`/`nan` are out of scope: the
program only ever receives decimal sensor readings and device ids). -/
def parseFloatBody (l : List Char) : Option ℚ :=
  let (ip, rest) := takeDigits l
  let (fp, rest2) :=
    match rest with
    | '.' :: r => takeDigits r
    | _ => ([], rest)
  let rest3 := if rest = [] ∨ rest.head? = some '.' then rest2 else rest
  if ip = [] ∧ fp = [] then none
  else
    -- The value `ip.fp × 10^(±e)` is built as one exact fraction
    -- `digits(ip ++ fp) · 10^(e⁺) / (10^|fp| · 10^(e⁻))` via `Rat.divInt`
    -- (decimal positional notation: `digits(ip ++ fp) = digits(ip)·10^|fp| + digits(fp)`).
    match rest3 with
    | [] =>
        some (Rat.divInt (Int.ofNat (digitsVal (ip ++ fp))) (Int.ofNat (10 ^ fp.length)))
    | e :: r =>
        if e = 'e' ∨ e = 'E' then
          let (expNeg, r2) : Bool × List Char :=
            match r with
            | '+' :: r2 => (false, r2)
            | '-' :: r2 => (true, r2)
            | _ => (false, r)
          let (eds, r3) := takeDigits r2
          if eds = [] ∨ r3 ≠ [] then none
          else if expNeg then
            some (Rat.divInt (Int.ofNat (digitsVal (ip ++ fp)))
              (Int.ofNat (10 ^ fp.length * 10 ^ digitsVal eds)))
          else
            some (Rat.divInt (Int.ofNat (digitsVal (ip ++ fp) * 10 ^ digitsVal eds))
              (Int.ofNat (10 ^ fp.length)))
        else none

/-- The characters Python 2 `str.strip()` removes: `' \\t\\n\\r\\x0b\\x0c'`. -/
def pyIsSpace (c : Char) : Bool :=
  c = ' ' ∨ c = '\t' ∨ c = '\n' ∨ c = '\r' ∨ c = '\x0b' ∨ c = '\x0c'

/-- Model of Python 2 `str.strip()`: drop leading and trailing whitespace. -/
def pyStrip (l : List Char) : List Char :=
  ((l.dropWhile pyIsSpace).reverse.dropWhile pyIsSpace).reverse

/-- Parse an optionally signed Python float literal. -/
def parseFloatSigned (l : List Char) : Option ℚ :=
  match l with
  | '+' :: r => parseFloatBody r
  | '-' :: r => (parseFloatBody r).map (fun q => -q)
  | _ => parseFloatBody l

/-- Model of Python `float(s)` for a string `s`: strip surrounding
whitespace, then parse a signed decimal literal; raises `ValueError`
otherwise. -/
def pyFloat (s : String) : Except Err ℚ :=
  match parseFloatSigned (pyStrip s.data) with
  | some q => .ok q
  | none => .error (.valueError s)

/-- Model of Python `int(s)` for a string `s`: strip surrounding whitespace,
then parse an optionally signed run of decimal digits; raises `ValueError`
otherwise. -/
def pyIntOfString (s : String) : Except Err ℤ :=
  let body : List Char → Option ℤ := fun l =>
    let (ds, r) := takeDigits l
    if ds = [] ∨ r ≠ [] then none else some (digitsVal ds : ℤ)
  let parsed : Option ℤ :=
    match pyStrip s.data with
    | '+' :: r => body r
    | '-' :: r => (body r).map (fun n => -n)
    | l => body l
  match parsed with
  | some n => .ok n
  | none => .error (.valueError s)

/-- Model of Python `int(x)` on a float: truncation toward zero
(`⌈q⌉ = -⌊-q⌋`). -/
def pyTrunc (q : ℚ) : ℤ := if q < 0 then -⌊-q⌋ else ⌊q⌋

/-- Model of Python 2 `str.isdigit()`: nonempty and all decimal digits. -/
def pyIsdigit (s : String) : Bool := ¬s.data.isEmpty ∧ s.data.all Char.isDigit

/-! ## `_make_request` (lines 180-204): the retry loop

The per-attempt result of `requests.get(...)` is an `Outcome` chosen by an
oracle `outcomes : ℕ → Outcome` (indexed by the loop variable `attempt`). -/

/-- Result of one `requests.get` attempt inside `_make_request`. -/
inductive Outcome where
  /-- The GET returned a page with this content. -/
  | ok (page : Raw) : Outcome
  /-- `requests.exceptions.ConnectionError` was raised. -/
  | connErr : Outcome
  /-- `requests.exceptions.Timeout` was raised. -/
  | timeoutErr : Outcome
  /-- Some other exception was raised (caught by no handler). -/
  | fail (e : Err) : Outcome
deriving DecidableEq, Repr

/-- The outcomes caught and retried by `_make_request`'s two `except`
clauses: `requests.exceptions.ConnectionError` and
`requests.exceptions.Timeout`. -/
def retryable (o : Outcome) : Prop := o = .connErr ∨ o = .timeoutErr

/-- One HTTP GET as issued on the wire by `_make_request` (lines 192-195):
the full URL, the timeout passed, and the cookies passed (`none` models the
no-`cookies=` call of line 193). -/
structure HttpGet where
  url : String
  timeout : ℚ
  cookies : Option String
deriving DecidableEq, Repr

/-- `num_attempts = 10` (line 189). -/
def num_attempts : ℕ := 10

/-- The GET issued on one attempt (lines 192-195): `cookies=` is passed
exactly when `self.cookie` is not `None`. -/
def issuedGet (s : ServerState) (command : String) : HttpGet :=
  match s.cookie with
  | none => ⟨s.base_url ++ command, s.timeout, none⟩
  | some jar => ⟨s.base_url ++ command, s.timeout, some jar⟩

/-- The `for attempt in xrange(num_attempts)` loop of lines 190-204, over the
remaining attempt indices.  Returns `none` if the loop falls off the end
(Python's implicit `return None` — in fact unreachable from `range 10`),
together with the log of GETs issued. -/
def runAttempts (s : ServerState) (command : String) (outcomes : ℕ → Outcome) :
    List ℕ → Option (Except Err Raw) × List HttpGet
  | [] => (none, [])
  | attempt :: rest =>
      match outcomes attempt with
      | .ok page => (some (.ok page), [issuedGet s command])
      | .connErr =>
          if attempt = num_attempts - 1 then
            (some (.error .connectionLost), [issuedGet s command])
          else
            ((runAttempts s command outcomes rest).1,
             issuedGet s command :: (runAttempts s command outcomes rest).2)
      | .timeoutErr =>
          if attempt = num_attempts - 1 then
            (some (.error .serverTimeout), [issuedGet s command])
          else
            ((runAttempts s command outcomes rest).1,
             issuedGet s command :: (runAttempts s command outcomes rest).2)
      | .fail e => (some (.error e), [issuedGet s command])

/-- `Server._make_request(command)` with per-attempt oracle `outcomes`:
the loop of lines 190-204 run over `xrange(10)`.  Does not mutate the
object state. -/
def make_request (s : ServerState) (command : String) (outcomes : ℕ → Outcome) :
    Option (Except Err Raw) × List HttpGet :=
  runAttempts s command outcomes (List.range num_attempts)

/-! ## `generate_session` (lines 206-221) -/

/-- One HTTP POST as issued by `generate_session` (line 217): the login URL
and the request body.  (The headers are the fixed JSON pair of lines
211-214.) -/
structure HttpPost where
  url : String
  body : String
deriving DecidableEq, Repr

/-- `Server.generate_session(host, port, username, password)`: returns the
new value of `self.cookie` and the log of HTTP requests issued.  The oracle
`postCookies` gives `r.cookies` for the login POST.

Python compares `username is "" and password is ""` (line 207); in CPython 2
the empty `str` is interned (a single cached object), so identity with the
literal `""` coincides with string equality, which is how it is modelled. -/
def generate_session (postCookies : HttpPost → String)
    (host : String) (port : ℕ) (username password : String) :
    Option String × List HttpPost :=
  if username = "" ∧ password = "" then
    (none, [])
  else
    let loginpage := "http://" ++ host ++ ":" ++ toString port ++ "/ZAutomation/api/v1/login"
    let data := "\x7b\"form\":true, \"login\":\"" ++ username ++ "\", \"password\":\""
      ++ password ++ "\", \"keepme\":false, \"default_ui\":1\x7d"
    let req : HttpPost := ⟨loginpage, data⟩
    (some (postCookies req), [req])

/-! ## The device-tree page and JSON values -/

/-- Keys of `commandClasses[commandClass]['data']` (line 87): the data
indices, digit and non-digit alike, in iteration order. -/
abbrev ClassData := List String

/-- `instances[instance_num]['commandClasses']` (line 84): command class code
to its data keys, in iteration order. -/
abbrev InstanceClasses := List (String × ClassData)

/-- `devices_page[device_id_base]['instances']` (line 82). -/
abbrev BaseInstances := List (String × InstanceClasses)

/-- The parsed `Run/devices` page (line 79), assuming the vendor schema:
base device id to its instances, in iteration order. -/
abbrev DevicesPage := List (String × BaseInstances)

/-- A parsed JSON value, for `.json()` results that are traversed
generically (`software_version`). -/
inductive Json where
  | null : Json
  | bool (b : Bool) : Json
  | num (q : ℚ) : Json
  | str (s : String) : Json
  | arr (elems : List Json) : Json
  | obj (fields : List (String × Json)) : Json

/-- Python `j[k]` for a parsed JSON value: field of a dict, `KeyError` if
missing, `TypeError` if `j` is not a dict. -/
def jsonGet (j : Json) (k : String) : Except Err Json :=
  match j with
  | .obj fields =>
      match fields.find? (fun p => p.1 == k) with
      | some p => .ok p.2
      | none => .error (.keyError k)
  | _ => .error .typeError

/-- Network oracle for the higher-level methods: the result of an
(already retried, per `make_request`) `_make_request` call, per command
string.  `page` is the parsed `.json()` of `Run/devices` (line 79), `json`
the parsed `.json()` of any other command, `content` the `.content` of a
command.  An `Except.error` models the exception the request raised
(retry exhaustion, JSON `ValueError`, ...). -/
structure Net where
  page : Except Err DevicesPage
  content : String → Except Err Raw
  json : String → Except Err Json

/-! ## Registry helpers (Python dict operations on `self.devices`) -/

/-- Dict lookup `self.devices[k]`. -/
def lookupEntry (r : Registry) (k : String) : Option DeviceEntry :=
  (r.find? (fun p => p.1 == k)).map (fun p => p.2)

/-- Dict assignment `self.devices[k] = v`: overwrite in place, or append. -/
def setBinding (r : Registry) (k : String) (v : DeviceEntry) : Registry :=
  if r.any (fun p => p.1 == k) then
    r.map (fun p => if p.1 = k then (k, v) else p)
  else r ++ [(k, v)]

/-- `self.devices[k]['name'] = n` (line 114): in-place update of the entry's
`'name'` field. -/
def setName (r : Registry) (k : String) (n : String) : Registry :=
  r.map (fun p => if p.1 = k then (p.1, { p.2 with name := some n }) else p)

/-! ## The `Server` methods -/

/-- The object state right after lines 48-49 of `__init__`: default timeout
`5.0`, the base URL, no devices yet, and the cookie produced by
`generate_session` (line 53). -/
def init_state (host : String) (port : ℕ) (cookie : Option String) : ServerState :=
  { timeout := 5
    base_url := "http://" ++ host ++ ":" ++ toString port ++ "/ZWaveAPI/"
    devices := []
    cookie := cookie }

/-- `Server.set_timeout(timeout)` (lines 68-70): `self.timeout = float(timeout)`.
The argument is already numeric in the model, so `float(...)` is the
identity. -/
def set_timeout (timeout : ℚ) : M Unit := fun s =>
  (.ok (), { s with timeout := timeout })

/-- `Server.device_type(device_id)` (lines 159-170).  Returns the raw
`.content` of the `sensorTypeString.value` request. -/
def device_type (net : Net) (device_id : String) : M Raw := fun s =>
  match pyFloat device_id with                       -- line 162: int(float(device_id))
  | .error e => (.error e, s)
  | .ok q =>
      let device := pyTrunc q
      match lookupEntry s.devices device_id with     -- lines 163-165
      | none => (.error (.keyError device_id), s)
      | some entry =>
          let instance_num := entry.data.instance_num
          let command_class := entry.data.command_class
          let data_num := entry.data.data_num
          let command := "Run/devices[" ++ toString device ++ "].instances[" ++ instance_num
            ++ "].commandClasses[" ++ command_class ++ "].data[" ++ data_num
            ++ "].sensorTypeString.value"            -- lines 168-169
          (net.content command, s)                   -- line 170

/-- `acceptedClasses = ['48', '49', '50']` (line 78). -/
def acceptedClasses : List String := ["48", "49", "50"]

/-- The `data_dict` built at lines 89-98 for one accepted data channel:
command class `48` gets suffix `level.value` and type `bool`, the others
(classes `49`/`50` by the line-86 filter) get `val.value` and `double`. -/
def mkDataDict (instance_num commandClass data_num : String) : DataDict :=
  if commandClass = "48" then
    ⟨instance_num, commandClass, data_num, "level.value", "bool"⟩
  else
    ⟨instance_num, commandClass, data_num, "val.value", "double"⟩

/-- The loop over `commandClasses[commandClass]['data']` (lines 87-114),
threading `device_count`.  `strip`/`replace` on the raw bytes do not change
UTF-8 validity (they only remove/replace ASCII characters), so `validUtf8`
is carried unchanged; the `try` of lines 107-112 fails (Python 2
`UnicodeDecodeError` on the implicit decode in `device_id_base + '_' +
device_type`) exactly when the bytes are not valid UTF-8. -/
def scanData (net : Net) (device_id_base instance_num commandClass : String) :
    List String → ℕ → M ℕ
  | [], device_count => fun s => (.ok device_count, s)
  | data_num :: restData, device_count => fun s =>
      if pyIsdigit data_num then                     -- line 88
        let data_dict := mkDataDict instance_num commandClass data_num  -- lines 89-98
        let device_id := device_id_base ++ "." ++ toString device_count  -- line 100
        let s1 : ServerState :=                      -- lines 101-102
          { s with devices := setBinding s.devices device_id ⟨data_dict, none⟩ }
        let device_count := device_count + 1         -- line 103
        match device_type net device_id s1 with      -- line 105 (errors propagate)
        | (.error e, s2) => (.error e, s2)
        | (.ok dt, s2) =>
            -- lines 105-106: `.strip()` then `.replace(' ', '_')` (the pattern
            -- is a single character, so the replacement is a character map)
            let sanitized := String.mk ((pyStrip dt.text.data).map
              (fun c => if c = ' ' then '_' else c))
            if dt.validUtf8 then                     -- lines 107-108, 114
              let name := device_id_base ++ "_" ++ sanitized
              let s3 := { s2 with devices := setName s2.devices device_id name }
              scanData net device_id_base instance_num commandClass restData device_count s3
            else                                     -- lines 109-112: print, continue
              scanData net device_id_base instance_num commandClass restData device_count s2
      else
        scanData net device_id_base instance_num commandClass restData device_count s

/-- The loop over `commandClasses` (lines 85-114). -/
def scanClasses (net : Net) (device_id_base instance_num : String) :
    InstanceClasses → ℕ → M ℕ
  | [], device_count => fun s => (.ok device_count, s)
  | (commandClass, classData) :: restClasses, device_count => fun s =>
      if commandClass ∈ acceptedClasses then         -- line 86
        match scanData net device_id_base instance_num commandClass classData device_count s with
        | (.error e, s') => (.error e, s')
        | (.ok count', s') =>
            scanClasses net device_id_base instance_num restClasses count' s'
      else
        scanClasses net device_id_base instance_num restClasses device_count s

/-- The loop over `instances` (lines 83-114). -/
def scanInstances (net : Net) (device_id_base : String) :
    BaseInstances → ℕ → M ℕ
  | [], device_count => fun s => (.ok device_count, s)
  | (instance_num, classes) :: restInstances, device_count => fun s =>
      match scanClasses net device_id_base instance_num classes device_count s with
      | (.error e, s') => (.error e, s')
      | (.ok count', s') =>
          scanInstances net device_id_base restInstances count' s'

/-- The loop over `devices_page` (lines 80-114): `device_count` restarts at
`0` for each base id (line 81). -/
def scanPage (net : Net) : DevicesPage → M Unit
  | [] => fun s => (.ok (), s)
  | (device_id_base, instances) :: restBases => fun s =>
      match scanInstances net device_id_base instances 0 s with
      | (.error e, s') => (.error e, s')
      | (.ok _, s') => scanPage net restBases s'

/-- `Server.update_devices()` (lines 72-116): clear `self.devices`, fetch
and traverse the device page, return the new dictionary. -/
def update_devices (net : Net) : M Registry := fun s =>
  let s0 : ServerState := { s with devices := [] }   -- line 77
  match net.page with                                -- line 79
  | .error e => (.error e, s0)
  | .ok devices_page =>
      match scanPage net devices_page s0 with
      | (.error e, s') => (.error e, s')
      | (.ok _, s') => (.ok s'.devices, s')          -- line 116

/-- `sorted(keys, key=float)` computes `float(k)` for every element before
sorting; a `ValueError` on any key propagates. -/
def floatKeyed : List String → Except Err (List (String × ℚ))
  | [] => .ok []
  | k :: rest =>
      match pyFloat k with
      | .error e => .error e
      | .ok q => (floatKeyed rest).map (fun l => (k, q) :: l)

/-- `Server.device_IDs()` (lines 118-120):
`sorted(self.devices.keys(), key=float)`. -/
def device_IDs : M (List String) := fun s =>
  match floatKeyed (s.devices.map (fun p => p.1)) with
  | .error e => (.error e, s)
  | .ok keyed =>
      (.ok ((keyed.insertionSort (fun a b => a.2 ≤ b.2)).map (fun p => p.1)), s)

/-- `Server.software_version()` (lines 122-126).  Note the source passes
`self.base_url + "Data"` as the command, which `_make_request` appends to
the base URL again; the oracle is keyed by the command string as passed. -/
def software_version (net : Net) : M Json := fun s =>
  let command := s.base_url ++ "Data"                -- line 124
  match net.json command with                        -- line 125
  | .error e => (.error e, s)
  | .ok data_dict =>
      match jsonGet data_dict "controller" with      -- line 126
      | .error e => (.error e, s)
      | .ok c =>
          match jsonGet c "data" with
          | .error e => (.error e, s)
          | .ok d =>
              match jsonGet d "softwareRevisionVersion" with
              | .error e => (.error e, s)
              | .ok v => (.ok v, s)

/-- `Server.battery_level(device_id)` (lines 128-132).  Line 130's format
string has a single placeholder, so only `device_id` is interpolated;
`instance` is looked up (line 129, may raise `KeyError`) but unused. -/
def battery_level (net : Net) (device_id : String) : M ℤ := fun s =>
  match lookupEntry s.devices device_id with         -- line 129
  | none => (.error (.keyError device_id), s)
  | some _entry =>
      let command := "Run/devices[" ++ device_id ++ "].instances[0].Battery.data.last.value"
      match net.content command with                 -- line 131
      | .error e => (.error e, s)
      | .ok battery_percent => (pyIntOfString battery_percent.text, s)  -- line 132

/-- `Server.get_data(device_id)` (lines 134-157). -/
def get_data (net : Net) (device_id : String) : M ℚ := fun s =>
  match lookupEntry s.devices device_id with         -- lines 137-141
  | none => (.error (.keyError device_id), s)
  | some entry =>
      let instance_num := entry.data.instance_num
      let command_class := entry.data.command_class
      let data_num := entry.data.data_num
      let data_type := entry.data.type
      let suffix := entry.data.url_suffix
      match pyFloat device_id with                   -- line 142: int(float(device_id))
      | .error e => (.error e, s)
      | .ok q =>
          let device := pyTrunc q
          let command1 := "Run/devices[" ++ toString device ++ "].instances[" ++ instance_num
            ++ "].commandClasses[" ++ command_class ++ "].Get(sensorType=-1)"
          match net.content command1 with            -- lines 145-147: update the device
          | .error e => (.error e, s)
          | .ok _ =>
              let command2 := "Run/devices[" ++ toString device ++ "].instances[" ++ instance_num
                ++ "].commandClasses[" ++ command_class ++ "].data[" ++ data_num ++ "]." ++ suffix
              match net.content command2 with        -- lines 150-152: retrieve data
              | .error e => (.error e, s)
              | .ok data =>
                  if data_type = "bool" then         -- lines 154-155
                    (.ok (if data.text = "true" then 1 else 0), s)
                  else
                    match pyFloat data.text with     -- line 157: float(data)
                    | .error e => (.error e, s)
                    | .ok v => (.ok v, s)

/-- `Server.device_name(device_id)` (lines 172-174): pure dict lookup. -/
def device_name (device_id : String) : M String := fun s =>
  match lookupEntry s.devices device_id with
  | none => (.error (.keyError device_id), s)
  | some entry =>
      match entry.name with
      | none => (.error (.keyError "name"), s)
      | some n => (.ok n, s)

/-! ## `save_devices_to_file` (lines 176-178): JSON serialization

`json.dump(self.devices, fh)` with Python 2's defaults: item separator
`", "`, key separator `": "`, `ensure_ascii=True` (every character outside
printable ASCII escaped, astral characters as a UTF-16 surrogate pair).
Dict key order is modelled as insertion order (lines 90-98 / 101-102 /
114 fix the field insertion order `instance_num, command_class, data_num,
url_suffix, type` and `data, name`). -/

/-- Lowercase hex digit character for `n < 16`. -/
def hexDigitChar (n : ℕ) : Char :=
  if n < 10 then Char.ofNat ('0'.toNat + n) else Char.ofNat ('a'.toNat + (n - 10))

/-- Four lowercase hex digits of `n < 0x10000`, as in `'\\u{0:04x}'`. -/
def hex4 (n : ℕ) : List Char :=
  [hexDigitChar (n / 4096 % 16), hexDigitChar (n / 256 % 16),
   hexDigitChar (n / 16 % 16), hexDigitChar (n % 16)]

/-- `json.encoder`'s ASCII escaping of one character: backslash and quote
escaped, the five named control escapes, printable ASCII verbatim,
everything else as `\uXXXX` (a surrogate pair beyond the BMP). -/
def escapeChar (c : Char) : List Char :=
  if c = '\\' then ['\\', '\\']
  else if c = '"' then ['\\', '"']
  else if c.toNat = 8 then ['\\', 'b']
  else if c.toNat = 9 then ['\\', 't']
  else if c.toNat = 10 then ['\\', 'n']
  else if c.toNat = 12 then ['\\', 'f']
  else if c.toNat = 13 then ['\\', 'r']
  else if 0x20 ≤ c.toNat ∧ c.toNat ≤ 0x7e then [c]
  else if c.toNat < 0x10000 then '\\' :: 'u' :: hex4 c.toNat
  else
    let n := c.toNat - 0x10000
    ('\\' :: 'u' :: hex4 (0xd800 + n / 0x400)) ++ ('\\' :: 'u' :: hex4 (0xdc00 + n % 0x400))

/-- Escape every character of a string. -/
def escapeString (s : String) : List Char := s.data.flatMap escapeChar

/-- A JSON string literal: `"` escaped-content `"`. -/
def dumpString (s : String) : List Char := '"' :: escapeString s ++ ['"']

/-- The JSON object for a `data_dict`, fields in insertion order
(lines 90-98). -/
def dumpDataDict (d : DataDict) : List Char :=
  ['\x7b'] ++ dumpString "instance_num" ++ [':', ' '] ++ dumpString d.instance_num
  ++ [',', ' '] ++ dumpString "command_class" ++ [':', ' '] ++ dumpString d.command_class
  ++ [',', ' '] ++ dumpString "data_num" ++ [':', ' '] ++ dumpString d.data_num
  ++ [',', ' '] ++ dumpString "url_suffix" ++ [':', ' '] ++ dumpString d.url_suffix
  ++ [',', ' '] ++ dumpString "type" ++ [':', ' '] ++ dumpString d.type
  ++ ['\x7d']

/-- The JSON object for one registry entry: `'data'` always, `'name'` when
present (insertion order, lines 101-102 and 114). -/
def dumpEntry (e : DeviceEntry) : List Char :=
  match e.name with
  | none => ['\x7b'] ++ dumpString "data" ++ [':', ' '] ++ dumpDataDict e.data ++ ['\x7d']
  | some n =>
      ['\x7b'] ++ dumpString "data" ++ [':', ' '] ++ dumpDataDict e.data
      ++ [',', ' '] ++ dumpString "name" ++ [':', ' '] ++ dumpString n ++ ['\x7d']

/-- The members of the top-level JSON object, joined by `", "`. -/
def dumpMembers : Registry → List Char
  | [] => []
  | [(k, v)] => dumpString k ++ [':', ' '] ++ dumpEntry v
  | (k, v) :: rest => dumpString k ++ [':', ' '] ++ dumpEntry v ++ [',', ' '] ++ dumpMembers rest

/-- `Server.save_devices_to_file(fh)` (lines 176-178): the exact text
`json.dump(self.devices, fh)` writes to the sink. -/
def save_devices_to_file (s : ServerState) : String :=
  String.mk (['\x7b'] ++ dumpMembers s.devices ++ ['\x7d'])

/-! ### An independent parser for the written JSON

A recursive-descent reader of the registry's JSON schema, written against
the JSON grammar (RFC 8259 string syntax, including surrogate-pair
recombination; lone surrogates rejected).  It shares no code with the
serializer above. -/

/-- Value of one hex digit (either case accepted, per the JSON grammar). -/
def hexVal (c : Char) : Option ℕ :=
  if '0' ≤ c ∧ c ≤ '9' then some (c.toNat - '0'.toNat)
  else if 'a' ≤ c ∧ c ≤ 'f' then some (c.toNat - 'a'.toNat + 10)
  else if 'A' ≤ c ∧ c ≤ 'F' then some (c.toNat - 'A'.toNat + 10)
  else none

/-- Value of a four-hex-digit escape. -/
def hex4Val (h1 h2 h3 h4 : Char) : Option ℕ :=
  match hexVal h1, hexVal h2, hexVal h3, hexVal h4 with
  | some a, some b, some c, some d => some (((a * 16 + b) * 16 + c) * 16 + d)
  | _, _, _, _ => none

/-- The single-character JSON escapes. -/
def unescapeShort (e : Char) : Option Char :=
  if e = '"' then some '"'
  else if e = '\\' then some '\\'
  else if e = '/' then some '/'
  else if e = 'b' then some (Char.ofNat 8)
  else if e = 'f' then some (Char.ofNat 12)
  else if e = 'n' then some (Char.ofNat 10)
  else if e = 'r' then some (Char.ofNat 13)
  else if e = 't' then some (Char.ofNat 9)
  else none

/-- Decode one escape sequence (the part after the backslash): the decoded
character and the number of input characters consumed.  `\\uXXXX` escapes are
decoded, with a high surrogate followed by a low surrogate recombined into
one code point; lone surrogates are rejected. -/
def decodeEscape : List Char → Option (Char × ℕ)
  | 'u' :: h1 :: h2 :: h3 :: h4 :: rest2 =>
      match hex4Val h1 h2 h3 h4 with
      | none => none
      | some n =>
          if n < 0xd800 ∨ 0xe000 ≤ n then some (Char.ofNat n, 5)
          else if n < 0xdc00 then
            match rest2 with
            | '\\' :: 'u' :: g1 :: g2 :: g3 :: g4 :: _ =>
                match hex4Val g1 g2 g3 g4 with
                | none => none
                | some m =>
                    if 0xdc00 ≤ m ∧ m < 0xe000 then
                      some (Char.ofNat (0x10000 + (n - 0xd800) * 0x400 + (m - 0xdc00)), 11)
                    else none
            | _ => none
          else none
  | e :: _ => (unescapeShort e).map (fun d => (d, 1))
  | [] => none

/-- Read the body of a JSON string literal (after the opening quote) up to
and including the closing quote; returns the decoded characters and the
remaining input. -/
def parseStringBody : List Char → Option (List Char × List Char)
  | [] => none
  | c :: rest =>
      if c = '"' then some ([], rest)
      else if c = '\\' then
        match decodeEscape rest with
        | none => none
        | some (d, k) =>
            (parseStringBody (rest.drop k)).map (fun p => (d :: p.1, p.2))
      else
        (parseStringBody rest).map (fun p => (c :: p.1, p.2))
termination_by l => l.length
decreasing_by
  · simp only [List.length_drop, List.length_cons]
    omega
  · simp only [List.length_cons]
    omega

/-- Expect a literal prefix; return the rest of the input. -/
def expectChars : List Char → List Char → Option (List Char)
  | [], l => some l
  | c :: cs, d :: l => if d = c then expectChars cs l else none
  | _ :: _, [] => none

/-- Read a JSON string literal, quotes included. -/
def parseQuoted (l : List Char) : Option (String × List Char) :=
  match l with
  | '"' :: rest => (parseStringBody rest).map (fun p => (String.mk p.1, p.2))
  | _ => none

/-- Expect the fixed ASCII key `name` with the `": "` key separator. -/
def expectKey (name : String) (l : List Char) : Option (List Char) :=
  expectChars ('"' :: name.data ++ ['"', ':', ' ']) l

/-- Read `"name": "<value>"` for a fixed key name; return the decoded
value. -/
def parseStrField (name : String) (l : List Char) : Option (String × List Char) :=
  match expectKey name l with
  | none => none
  | some l1 => parseQuoted l1

/-- Read the `data_dict` object. -/
def parseDataDict (l : List Char) : Option (DataDict × List Char) :=
  match expectChars ['\x7b'] l with
  | none => none
  | some l1 =>
  match parseStrField "instance_num" l1 with
  | none => none
  | some (v1, l2) =>
  match expectChars [',', ' '] l2 with
  | none => none
  | some l3 =>
  match parseStrField "command_class" l3 with
  | none => none
  | some (v2, l4) =>
  match expectChars [',', ' '] l4 with
  | none => none
  | some l5 =>
  match parseStrField "data_num" l5 with
  | none => none
  | some (v3, l6) =>
  match expectChars [',', ' '] l6 with
  | none => none
  | some l7 =>
  match parseStrField "url_suffix" l7 with
  | none => none
  | some (v4, l8) =>
  match expectChars [',', ' '] l8 with
  | none => none
  | some l9 =>
  match parseStrField "type" l9 with
  | none => none
  | some (v5, l10) =>
  match expectChars ['\x7d'] l10 with
  | none => none
  | some l11 => some (⟨v1, v2, v3, v4, v5⟩, l11)

/-- Read one registry-entry object: `'data'` and an optional `'name'`. -/
def parseEntry (l : List Char) : Option (DeviceEntry × List Char) :=
  match expectChars ['\x7b'] l with
  | none => none
  | some l1 =>
  match expectKey "data" l1 with
  | none => none
  | some l2 =>
  match parseDataDict l2 with
  | none => none
  | some (d, l3) =>
  match l3 with
  | '\x7d' :: l4 => some (⟨d, none⟩, l4)
  | ',' :: ' ' :: l4 =>
      match parseStrField "name" l4 with
      | none => none
      | some (n, l5) =>
          match expectChars ['\x7d'] l5 with
          | none => none
          | some l6 => some (⟨d, some n⟩, l6)
  | _ => none

/-- Read the members of the top-level object (at least one); `fuel` bounds
the number of members. -/
def parseMembers : ℕ → List Char → Option (Registry × List Char)
  | 0, _ => none
  | fuel + 1, l =>
      match parseQuoted l with
      | none => none
      | some (k, l1) =>
      match expectChars [':', ' '] l1 with
      | none => none
      | some l2 =>
      match parseEntry l2 with
      | none => none
      | some (e, l3) =>
      match l3 with
      | ',' :: ' ' :: l4 =>
          match parseMembers fuel l4 with
          | none => none
          | some (r, l5) => some ((k, e) :: r, l5)
      | _ => some ([(k, e)], l3)

/-- Parse a full registry JSON document. -/
def parseRegistry (text : String) : Option Registry :=
  match text.data with
  | '\x7b' :: l =>
      match l with
      | ['\x7d'] => some []
      | _ =>
          match parseMembers l.length l with
          | none => none
          | some (r, rest) => if rest = ['\x7d'] then some r else none
  | _ => none

/-! ## Concrete example inputs (used by witness theorems) -/

/-- A concrete four-entry registry whose identifiers sort numerically as
`48.0, 48.10, 48.2, 49.0`. -/
def exReg4 : Registry :=
  [("49.0", ⟨⟨"0", "49", "1", "val.value", "double"⟩, none⟩),
   ("48.10", ⟨⟨"0", "48", "1", "level.value", "bool"⟩, none⟩),
   ("48.0", ⟨⟨"0", "48", "2", "level.value", "bool"⟩, none⟩),
   ("48.2", ⟨⟨"0", "48", "3", "level.value", "bool"⟩, none⟩)]

/-- A concrete server state holding `exReg4`. -/
def exState4 : ServerState := ⟨5, "u", exReg4, none⟩

/-- The numeric values of `exReg4`'s identifiers. -/
def exVal4 (k : String) : ℚ :=
  if k = "49.0" then Rat.divInt 49 1 else if k = "48.10" then Rat.divInt 481 10
  else if k = "48.0" then Rat.divInt 48 1 else Rat.divInt 241 5

/-- A concrete net oracle: the one-device page of the C6 scenario, every
content request answering `General purpose` (valid UTF-8). -/
def exNetOk : Net :=
  { page := .ok [("48", [("0", [("48", ["1"])])])]
    content := fun _ => .ok ⟨"General purpose", true⟩
    json := fun _ => .error .typeError }

/-- A net whose every content request returns the literal text `true`. -/
def exNetTrue : Net :=
  { page := .ok []
    content := fun _ => .ok ⟨"true", true⟩
    json := fun _ => .error .typeError }

/-- A net on which every request fails after retry exhaustion. -/
def exNetDown : Net :=
  { page := .error .connectionLost
    content := fun _ => .error .connectionLost
    json := fun _ => .error .connectionLost }

/-- A two-base device page on which the sensor-type request for the second
base id (`9`) times out, while everything else succeeds. -/
def exNetHalf : Net :=
  { page := .ok [("7", [("0", [("48", ["1"])])]), ("9", [("0", [("49", ["2"])])])]
    content := fun c =>
      if c = "Run/devices[9].instances[0].commandClasses[49].data[2].sensorTypeString.value"
      then .error .serverTimeout else .ok ⟨"T", true⟩
    json := fun _ => .error .typeError }

/-- A one-base page with two data channels, where the sensor-type text for
the first channel has invalid UTF-8 bytes (name construction fails) and the
second is fine. -/
def exNetBadUtf : Net :=
  { page := .ok [("48", [("0", [("48", ["1", "2"])])])]
    content := fun c =>
      if c = "Run/devices[48].instances[0].commandClasses[48].data[1].sensorTypeString.value"
      then .ok ⟨"Bad", false⟩ else .ok ⟨"Temp Sensor", true⟩
    json := fun _ => .error .typeError }

/-! ## Lemmas about the retry loop -/

/-- The loop issues at most one GET per remaining attempt index. -/
theorem runAttempts_length_le (s : ServerState) (c : String) (outcomes : ℕ → Outcome) :
    ∀ l : List ℕ, (runAttempts s c outcomes l).2.length ≤ l.length := by
  intro l
  induction l with
  | nil => simp [runAttempts]
  | cons a rest ih =>
      simp only [runAttempts]
      cases outcomes a with
      | ok page => simp
      | connErr =>
          by_cases h : a = num_attempts - 1
          · simp [h]
          · simp only [h, if_false, List.length_cons]
            omega
      | timeoutErr =>
          by_cases h : a = num_attempts - 1
          · simp [h]
          · simp only [h, if_false, List.length_cons]
            omega
      | fail e => simp

/-- A prefix of retryable, non-final attempts is skipped over: the result is
that of the remaining attempts, and each skipped attempt logs one GET. -/
theorem runAttempts_skip (s : ServerState) (c : String) (outcomes : ℕ → Outcome)
    (pre l : List ℕ)
    (h : ∀ i ∈ pre, retryable (outcomes i) ∧ i ≠ num_attempts - 1) :
    runAttempts s c outcomes (pre ++ l)
      = ((runAttempts s c outcomes l).1,
         pre.map (fun _ => issuedGet s c) ++ (runAttempts s c outcomes l).2) := by
  induction pre with
  | nil => simp
  | cons a rest ih =>
      obtain ⟨hr, hne⟩ := h a (by simp)
      have ih' := ih (fun i hi => h i (by simp [hi]))
      rcases hr with hc | ht
      · simp only [List.cons_append, runAttempts, hc, hne, if_false, List.append_eq]
        rw [ih']
        simp
      · simp only [List.cons_append, runAttempts, ht, hne, if_false, List.append_eq]
        rw [ih']
        simp

/-- `List.range m` splits at `n ≤ m` into `range n` and `range' n (m - n)`. -/
theorem range_split (n m : ℕ) (h : n ≤ m) :
    List.range m = List.range n ++ List.range' n (m - n) := by
  conv_lhs => rw [show m = n + (m - n) by omega]
  rw [List.range_add, List.range'_eq_map_range]

/-- C3: for every command path, `_make_request` attempts the GET at most 10
times; a connection error or timeout on an attempt before the 10th triggers
an immediate retry and a success on attempt `n` (after only retryable
failures) returns that response after exactly `n + 1` attempts; if all 10
attempts fail with retryable errors, a terminal error is raised
distinguishing connection loss from timeout by the 10th attempt's failure
kind; any other exception propagates immediately without retry. -/
theorem C3_make_request_retry_policy (s : ServerState) (c : String) (outcomes : ℕ → Outcome) :
    (make_request s c outcomes).2.length ≤ num_attempts
    ∧ (∀ n page, n < num_attempts → (∀ i, i < n → retryable (outcomes i)) →
        outcomes n = .ok page →
        (make_request s c outcomes).1 = some (.ok page)
          ∧ (make_request s c outcomes).2.length = n + 1)
    ∧ ((∀ i, i < num_attempts → retryable (outcomes i)) →
        (make_request s c outcomes).1
            = some (.error (if outcomes (num_attempts - 1) = .connErr
                then Err.connectionLost else Err.serverTimeout))
          ∧ (make_request s c outcomes).2.length = num_attempts)
    ∧ (∀ n e, n < num_attempts → (∀ i, i < n → retryable (outcomes i)) →
        outcomes n = .fail e →
        (make_request s c outcomes).1 = some (.error e)
          ∧ (make_request s c outcomes).2.length = n + 1) := by
  refine ⟨?_, ?_, ?_, ?_⟩
  · have h := runAttempts_length_le s c outcomes (List.range num_attempts)
    simpa [make_request] using h
  · intro n page hn hpre hok
    have hskip : ∀ i ∈ List.range n, retryable (outcomes i) ∧ i ≠ num_attempts - 1 := by
      intro i hi
      rw [List.mem_range] at hi
      exact ⟨hpre i hi, by simp [num_attempts] at hn ⊢; omega⟩
    have htail : List.range' n (num_attempts - n) = n :: List.range' (n + 1) (num_attempts - n - 1) := by
      have h1 : num_attempts - n = (num_attempts - n - 1) + 1 := by omega
      rw [h1, List.range'_succ]
      simp
    rw [make_request, range_split n num_attempts (Nat.le_of_lt hn),
        runAttempts_skip s c outcomes _ _ hskip, htail]
    simp [runAttempts, hok]
  · intro hall
    have hskip : ∀ i ∈ List.range (num_attempts - 1),
        retryable (outcomes i) ∧ i ≠ num_attempts - 1 := by
      intro i hi
      rw [List.mem_range] at hi
      exact ⟨hall i (by omega), by omega⟩
    have hd : List.range num_attempts
        = List.range (num_attempts - 1) ++ List.range' (num_attempts - 1) 1 := by
      have := range_split (num_attempts - 1) num_attempts (by simp [num_attempts])
      simpa [num_attempts] using this
    rw [make_request, hd, runAttempts_skip s c outcomes _ _ hskip]
    rcases hall (num_attempts - 1) (by simp [num_attempts]) with hc | ht
    · have hc9 : outcomes 9 = Outcome.connErr := by simpa [num_attempts] using hc
      simp [List.range'_one, runAttempts, hc9, num_attempts]
    · have ht9 : outcomes 9 = Outcome.timeoutErr := by simpa [num_attempts] using ht
      simp [List.range'_one, runAttempts, ht9, num_attempts]
  · intro n e hn hpre hfail
    have hskip : ∀ i ∈ List.range n, retryable (outcomes i) ∧ i ≠ num_attempts - 1 := by
      intro i hi
      rw [List.mem_range] at hi
      exact ⟨hpre i hi, by simp [num_attempts] at hn ⊢; omega⟩
    have htail : List.range' n (num_attempts - n) = n :: List.range' (n + 1) (num_attempts - n - 1) := by
      have h1 : num_attempts - n = (num_attempts - n - 1) + 1 := by omega
      rw [h1, List.range'_succ]
      simp
    rw [make_request, range_split n num_attempts (Nat.le_of_lt hn),
        runAttempts_skip s c outcomes _ _ hskip, htail]
    simp [runAttempts, hfail]

/-- Witness for C3: nine consecutive timeouts followed by a success return
the successful response on the 10th attempt. -/
theorem C3_witness :
    (make_request ⟨5, "http://localhost:8083/ZWaveAPI/", [], none⟩ "Data"
        (fun i => if i < 9 then .timeoutErr else .ok ⟨"v", true⟩)).1
      = some (.ok ⟨"v", true⟩)
    ∧ (make_request ⟨5, "http://localhost:8083/ZWaveAPI/", [], none⟩ "Data"
        (fun i => if i < 9 then .timeoutErr else .ok ⟨"v", true⟩)).2.length = 9 + 1 :=
  (C3_make_request_retry_policy ⟨5, "http://localhost:8083/ZWaveAPI/", [], none⟩ "Data"
      (fun i => if i < 9 then .timeoutErr else .ok ⟨"v", true⟩)).2.1 9 ⟨"v", true⟩
    (by decide) (fun i hi => Or.inr (by simp [hi])) (by simp)

/-- Every GET the retry loop logs is the one GET `_make_request` builds from
the current state. -/
theorem runAttempts_mem_log (s : ServerState) (c : String) (outcomes : ℕ → Outcome) :
    ∀ l : List ℕ, ∀ g ∈ (runAttempts s c outcomes l).2, g = issuedGet s c := by
  intro l
  induction l with
  | nil => simp [runAttempts]
  | cons a rest ih =>
      simp only [runAttempts]
      cases outcomes a with
      | ok page => simp
      | connErr =>
          by_cases h : a = num_attempts - 1
          · simp [h]
          · simp only [h, if_false, List.mem_cons]
            rintro g (rfl | hg)
            · rfl
            · exact ih g hg
      | timeoutErr =>
          by_cases h : a = num_attempts - 1
          · simp [h]
          · simp only [h, if_false, List.mem_cons]
            rintro g (rfl | hg)
            · rfl
            · exact ih g hg
      | fail e => simp

/-- C7: with empty username and password, `generate_session` issues no HTTP
request at all (in particular no login POST) and stores `cookie = None`;
and every request a cookie-less client sends carries no cookies. -/
theorem C7_empty_credentials_no_login (postCookies : HttpPost → String)
    (host : String) (port : ℕ) :
    generate_session postCookies host port "" "" = (none, [])
    ∧ (∀ (s : ServerState) (c : String) (outcomes : ℕ → Outcome), s.cookie = none →
        ∀ g ∈ (make_request s c outcomes).2, g.cookies = none) := by
  constructor
  · simp [generate_session]
  · intro s c outcomes hck g hg
    have hget := runAttempts_mem_log s c outcomes (List.range num_attempts) g hg
    rw [hget, issuedGet, hck]

/-- Witness for C7 at concrete inputs. -/
theorem C7_witness :
    generate_session (fun _ => "jar") "localhost" 8083 "" "" = (none, [])
    ∧ (∀ g ∈ (make_request ⟨5, "http://localhost:8083/ZWaveAPI/", [], none⟩ "Data"
          (fun _ => .ok ⟨"x", true⟩)).2, g.cookies = none) :=
  ⟨(C7_empty_credentials_no_login (fun _ => "jar") "localhost" 8083).1,
   (C7_empty_credentials_no_login (fun _ => "jar") "localhost" 8083).2
     ⟨5, "http://localhost:8083/ZWaveAPI/", [], none⟩ "Data" (fun _ => .ok ⟨"x", true⟩) rfl⟩

/-- C8 counterexample: `set_timeout(0)` is accepted (no exception) and
leaves the stored timeout at `0`, which is not strictly positive — the
claimed invariant `timeout > 0` is not preserved by every accepted
argument. -/
theorem C8_counterexample :
    (set_timeout 0 (init_state "localhost" 8083 none)).1 = Except.ok ()
    ∧ ¬ (0 < (set_timeout 0 (init_state "localhost" 8083 none)).2.timeout) :=
  ⟨rfl, by norm_num [set_timeout]⟩

/-- C8 amended: the timeout is `5 > 0` after construction, and `set_timeout`
stores its argument unvalidated, so the invariant `timeout > 0` is
preserved exactly for positive arguments. -/
theorem C8_timeout_amended :
    (∀ (host : String) (port : ℕ) (cookie : Option String),
        0 < (init_state host port cookie).timeout)
    ∧ (∀ (t : ℚ) (s : ServerState), (set_timeout t s).2.timeout = t)
    ∧ (∀ (t : ℚ) (s : ServerState), 0 < t → 0 < (set_timeout t s).2.timeout) := by
  refine ⟨fun host port cookie => ?_, fun t s => rfl, fun t s ht => ?_⟩
  · norm_num [init_state]
  · simpa [set_timeout] using ht

/-- Witness for C8's amended statement at a concrete positive argument. -/
theorem C8_witness :
    (0 : ℚ) < 1 ∧ 0 < (set_timeout 1 (init_state "localhost" 8083 none)).2.timeout :=
  ⟨by decide, C8_timeout_amended.2.2 1 (init_state "localhost" 8083 none) (by decide)⟩

/-! ## `device_IDs`: numeric sorting (C5) -/

/-- When every key parses as a float, `floatKeyed` pairs each key with its
numeric value, in order. -/
theorem floatKeyed_eq_map (val : String → ℚ) :
    ∀ keys : List String, (∀ k ∈ keys, pyFloat k = .ok (val k)) →
      floatKeyed keys = .ok (keys.map (fun k => (k, val k))) := by
  intro keys
  induction keys with
  | nil => intro _; rfl
  | cons k rest ih =>
      intro h
      have hk := h k (by simp)
      have hrest := ih (fun x hx => h x (by simp [hx]))
      simp only [floatKeyed, hk, hrest]
      rfl

/-- C5: when every device identifier in the registry parses as a float
(`val` giving its numeric value), `device_IDs` succeeds and returns a
permutation of all identifiers that is sorted by ascending numeric value
of the full identifier string. -/
theorem C5_device_IDs_numeric_sort (s : ServerState) (val : String → ℚ)
    (h : ∀ k ∈ s.devices.map (fun p => p.1), pyFloat k = .ok (val k)) :
    ∃ ids, (device_IDs s).1 = .ok ids
      ∧ List.Perm ids (s.devices.map (fun p => p.1))
      ∧ List.Sorted (fun a b => val a ≤ val b) ids := by
  classical
  set keys := s.devices.map (fun p => p.1) with hkeys
  have hfk : floatKeyed keys = .ok (keys.map (fun k => (k, val k))) :=
    floatKeyed_eq_map val keys h
  haveI : IsTotal (String × ℚ) (fun a b => a.2 ≤ b.2) := ⟨fun a b => le_total a.2 b.2⟩
  haveI : IsTrans (String × ℚ) (fun a b => a.2 ≤ b.2) := ⟨fun _ _ _ h1 h2 => le_trans h1 h2⟩
  set keyed := keys.map (fun k => (k, val k)) with hkeyed
  set sortedPairs := keyed.insertionSort (fun a b => a.2 ≤ b.2) with hsp
  refine ⟨sortedPairs.map (fun p => p.1), ?_, ?_, ?_⟩
  · simp only [device_IDs, ← hkeys, hfk]
  · have hperm : List.Perm sortedPairs keyed := List.perm_insertionSort _ keyed
    have := hperm.map (fun p : String × ℚ => p.1)
    refine this.trans ?_
    have hmapkeys : ∀ l : List String,
        List.map (fun p : String × ℚ => p.1) (List.map (fun k => (k, val k)) l) = l := by
      intro l
      induction l with
      | nil => rfl
      | cons a t ih => simp [ih]
    rw [hkeyed, hmapkeys keys]
  · have hsorted : List.Sorted (fun a b : String × ℚ => a.2 ≤ b.2) sortedPairs :=
      List.sorted_insertionSort _ keyed
    have hmem : ∀ p ∈ sortedPairs, p.2 = val p.1 := by
      intro p hp
      have hp' : p ∈ keyed := (List.perm_insertionSort _ keyed).mem_iff.mp hp
      rw [hkeyed] at hp'
      obtain ⟨k, _, rfl⟩ := List.mem_map.mp hp'
      rfl
    rw [List.Sorted, List.pairwise_map]
    exact hsorted.imp_of_mem (fun ha hb hab => by
      rw [← hmem _ ha, ← hmem _ hb]; exact hab)

/-- Witness for C5: a registry with identifiers `48.0`, `48.10`, `48.2`,
`49.0` (in scrambled stored order). -/
theorem C5_witness :
    ∃ ids, (device_IDs exState4).1 = .ok ids
      ∧ List.Perm ids (exState4.devices.map (fun p => p.1))
      ∧ List.Sorted (fun a b => exVal4 a ≤ exVal4 b) ids :=
  C5_device_IDs_numeric_sort exState4 exVal4 (by decide)

/-! ## C4: `get_data` decoding -/

/-- C4: for a registry device whose value type is `bool`, `get_data` decodes
the raw response text `"true"` as `1` and any other text as `0`; for any
other value type (`double` as built by the scan) it parses the raw text as a
float (`pyFloat`), returning a single numeric value.  The net returns `raw`
for every content request. -/
theorem C4_get_data_decoding (s : ServerState) (net : Net) (device_id : String)
    (entry : DeviceEntry) (raw : Raw)
    (hlook : lookupEntry s.devices device_id = some entry)
    (hfl : ∃ q, pyFloat device_id = .ok q)
    (hnet : net.content = fun _ => .ok raw) :
    (entry.data.type = "bool" →
      (get_data net device_id s).1 = .ok (if raw.text = "true" then 1 else 0))
    ∧ (entry.data.type ≠ "bool" →
      (get_data net device_id s).1 = pyFloat raw.text) := by
  obtain ⟨q, hq⟩ := hfl
  constructor
  · intro hb
    simp [get_data, hlook, hq, hnet, hb]
  · intro hb
    simp only [get_data, hlook, hq, hnet]
    rw [if_neg hb]
    cases hpf : pyFloat raw.text <;> simp [hpf]

/-- Witness for C4: a boolean channel receiving raw text `"true"`. -/
theorem C4_witness :
    lookupEntry exState4.devices "48.0" = some ⟨⟨"0", "48", "2", "level.value", "bool"⟩, none⟩
    ∧ (get_data exNetTrue "48.0" exState4).1
        = .ok (if ("true" : String) = "true" then 1 else 0) :=
  ⟨rfl, (C4_get_data_decoding exState4 exNetTrue "48.0"
      ⟨⟨"0", "48", "2", "level.value", "bool"⟩, none⟩ ⟨"true", true⟩ rfl ⟨_, rfl⟩ rfl).1 rfl⟩

/-! ## C10: read operations do not mutate the client state -/

/-- C10: every read operation (`get_data`, `device_type`, `device_name`,
`battery_level`, `device_IDs`, `software_version`) returns the client state
unchanged — registry, cookie and timeout included — whether it succeeds or
raises. -/
theorem C10_read_operations_frame (net : Net) (s : ServerState) (device_id : String) :
    (get_data net device_id s).2 = s
    ∧ (device_type net device_id s).2 = s
    ∧ (device_name device_id s).2 = s
    ∧ (battery_level net device_id s).2 = s
    ∧ (device_IDs s).2 = s
    ∧ (software_version net s).2 = s := by
  refine ⟨?_, ?_, ?_, ?_, ?_, ?_⟩ <;>
    · simp only [get_data, device_type, device_name, battery_level, device_IDs,
        software_version]
      repeat' split
      all_goals rfl

/-! ## C1, C2: what a failed scan leaves behind -/

/-- `device_type` never mutates the object state. -/
theorem device_type_snd (net : Net) (device_id : String) (s : ServerState) :
    (device_type net device_id s).2 = s := by
  simp only [device_type]
  repeat' split
  all_goals rfl

/-- Keys present in a registry survive a dict assignment. -/
theorem mem_keys_setBinding (r : Registry) (k' : String) (v : DeviceEntry) (k : String)
    (hk : k ∈ r.map (fun p => p.1)) :
    k ∈ (setBinding r k' v).map (fun p => p.1) := by
  unfold setBinding
  split
  · obtain ⟨p, hp, rfl⟩ := List.mem_map.mp hk
    refine List.mem_map.mpr ⟨if p.1 = k' then (k', v) else p, List.mem_map.mpr ⟨p, hp, rfl⟩, ?_⟩
    by_cases h : p.1 = k' <;> simp [h]
  · simp only [List.map_append]
    exact List.mem_append_left _ hk

/-- `setName` does not change the key list. -/
theorem keys_setName (r : Registry) (k : String) (n : String) :
    (setName r k n).map (fun p => p.1) = r.map (fun p => p.1) := by
  induction r with
  | nil => rfl
  | cons p t ih =>
      simp only [setName, List.map_cons] at ih ⊢
      rw [ih]
      congr 1
      by_cases h : p.1 = k <;> simp [h]

/-- The per-channel scan loop never removes a registry entry: any key
present before a `scanData` step is still present afterwards, whether the
step succeeds or raises. -/
theorem scanData_keeps_keys (net : Net) (b i cc : String) :
    ∀ (l : List String) (count : ℕ) (s : ServerState) (k : String),
      k ∈ s.devices.map (fun p => p.1) →
      k ∈ ((scanData net b i cc l count s).2).devices.map (fun p => p.1) := by
  intro l
  induction l with
  | nil =>
      intro count s k hk
      simpa [scanData] using hk
  | cons d rest ih =>
      intro count s k hk
      by_cases hd : pyIsdigit d
      · simp only [scanData, hd, if_true]
        set did := b ++ "." ++ toString count with hdid
        set s1 : ServerState := { s with devices := setBinding s.devices did ⟨mkDataDict i cc d, none⟩ } with hs1
        have hk1 : k ∈ s1.devices.map (fun p => p.1) := mem_keys_setBinding _ _ _ _ hk
        have hsnd := device_type_snd net did s1
        split
        · next e s2 heq =>
            have hs2 : s2 = s1 := by rw [heq] at hsnd; exact hsnd
            rw [hs2]
            exact hk1
        · next dt s2 heq =>
            have hs2 : s2 = s1 := by rw [heq] at hsnd; exact hsnd
            split
            · refine ih _ _ _ ?_
              rw [keys_setName, hs2]
              exact hk1
            · refine ih _ _ _ ?_
              rw [hs2]
              exact hk1
      · simp only [scanData, hd, if_false]
        exact ih _ _ _ hk

/-- C1 counterexample: with a non-empty registry and a net on which the
devices-page fetch raises, the rescan raises and leaves the registry
cleared — the caller observes an empty registry, contradicting the claimed
atomic replacement. -/
theorem C1_counterexample :
    exState4.devices ≠ []
    ∧ (update_devices exNetDown exState4).1 = .error .connectionLost
    ∧ (update_devices exNetDown exState4).2.devices = [] := by decide

/-- C1 amended: `update_devices` clears the registry in place before any
request and inserts entries one at a time, so a failed scan propagates its
error and leaves the registry cleared (devices-page fetch failed) or
partially populated (entries inserted before the failing request remain,
the last one without its name). -/
theorem C1_failed_scan_not_atomic (s : ServerState) (net : Net) (e : Err)
    (hp : net.page = .error e) :
    update_devices net s = (.error e, { s with devices := [] })
    ∧ (update_devices exNetHalf exState4).1 = .error .serverTimeout
    ∧ (update_devices exNetHalf exState4).2.devices
        = [("7.0", ⟨⟨"0", "48", "1", "level.value", "bool"⟩, some "7_T"⟩),
           ("9.0", ⟨⟨"0", "49", "2", "val.value", "double"⟩, none⟩)] := by
  refine ⟨?_, by decide, by decide⟩
  simp only [update_devices, hp]

/-- Witness for C1's amended statement: the devices-page failure clears the
non-empty registry `exReg4`. -/
theorem C1_witness :
    update_devices exNetDown exState4
      = (.error .connectionLost, { exState4 with devices := [] }) :=
  (C1_failed_scan_not_atomic exState4 exNetDown .connectionLost rfl).1

/-- C2 counterexample: when name construction fails for `48.0` (invalid
sensor-type bytes), the entry is not skipped: it still appears in the
resulting registry (with its data fields, just without a name). -/
theorem C2_counterexample :
    (update_devices exNetBadUtf (init_state "localhost" 8083 none)).1
      = .ok [("48.0", ⟨⟨"0", "48", "1", "level.value", "bool"⟩, none⟩),
             ("48.1", ⟨⟨"0", "48", "2", "level.value", "bool"⟩, some "48_Temp_Sensor"⟩)]
    ∧ "48.0" ∈ ((update_devices exNetBadUtf
        (init_state "localhost" 8083 none)).2.devices.map (fun p => p.1)) := by decide

/-- C2 amended: when name construction fails for a device's sensor-type
string, the scan continues with the remaining entries, but the device entry
is not removed: it stays in the registry with its data fields and no
`name` field (concretely, channel `48.0` below keeps its entry with
`name = none` while the scan proceeds to `48.1`); in general no `scanData`
step ever removes a registry key. -/
theorem C2_name_failure_keeps_entry :
    (update_devices exNetBadUtf (init_state "localhost" 8083 none)).1
      = .ok [("48.0", ⟨⟨"0", "48", "1", "level.value", "bool"⟩, none⟩),
             ("48.1", ⟨⟨"0", "48", "2", "level.value", "bool"⟩, some "48_Temp_Sensor"⟩)]
    ∧ (∀ (net : Net) (b i cc : String) (l : List String) (count : ℕ)
        (s : ServerState) (k : String),
        k ∈ s.devices.map (fun p => p.1) →
        k ∈ ((scanData net b i cc l count s).2).devices.map (fun p => p.1)) :=
  ⟨by decide, fun net b i cc l count s k hk => scanData_keeps_keys net b i cc l count s k hk⟩

/-- Witness for C2: a pre-existing key survives a scan step. -/
theorem C2_witness :
    "49.0" ∈ ((scanData exNetTrue "48" "0" "48" ["5"] 0 exState4).2).devices.map
      (fun p => p.1) :=
  C2_name_failure_keeps_entry.2 exNetTrue "48" "0" "48" ["5"] 0 exState4 "49.0" (by decide)

/-! ## C6: classification of scanned channels -/

/-- The classification invariant for one registry entry: its command class
is one of the accepted codes, class `48` entries are boolean with value
suffix `level.value`, and the others (`49`/`50`) are numeric with suffix
`val.value`. -/
def entryClassOk (p : String × DeviceEntry) : Prop :=
  p.2.data.command_class ∈ acceptedClasses
  ∧ (p.2.data.command_class = "48" →
      p.2.data.type = "bool" ∧ p.2.data.url_suffix = "level.value")
  ∧ (p.2.data.command_class ≠ "48" →
      p.2.data.type = "double" ∧ p.2.data.url_suffix = "val.value")

/-- Every entry of the whole registry satisfies `entryClassOk`. -/
def RegOk (r : Registry) : Prop := ∀ p ∈ r, entryClassOk p

/-- A member of `setBinding r k v` is a member of `r` or the new binding. -/
theorem mem_setBinding (r : Registry) (k : String) (v : DeviceEntry) :
    ∀ q ∈ setBinding r k v, q ∈ r ∨ q = (k, v) := by
  intro q hq
  unfold setBinding at hq
  split at hq
  · obtain ⟨p, hp, rfl⟩ := List.mem_map.mp hq
    by_cases h : p.1 = k
    · right
      simp [h]
    · left
      simpa [h] using hp
  · rcases List.mem_append.mp hq with h | h
    · exact Or.inl h
    · right
      simpa using h

/-- A member of `setName r k n` shares key and data with a member of `r`. -/
theorem mem_setName (r : Registry) (k n : String) :
    ∀ q ∈ setName r k n, ∃ p ∈ r, q.1 = p.1 ∧ q.2.data = p.2.data := by
  intro q hq
  obtain ⟨p, hp, rfl⟩ := List.mem_map.mp hq
  refine ⟨p, hp, ?_⟩
  by_cases h : p.1 = k <;> simp [h]

/-- The freshly built `data_dict` entry satisfies the classification
invariant for any accepted class. -/
theorem entryClassOk_mkDataDict (k i cc d : String) (hcc : cc ∈ acceptedClasses) :
    entryClassOk (k, ⟨mkDataDict i cc d, none⟩) := by
  have hcc' : (mkDataDict i cc d).command_class = cc := by
    unfold mkDataDict
    split <;> rfl
  refine ⟨?_, fun h => ?_, fun h => ?_⟩
  · simpa [entryClassOk, hcc'] using hcc
  · have h' : cc = "48" := by simpa [hcc'] using h
    simp [mkDataDict, h']
  · have h' : cc ≠ "48" := by simpa [hcc'] using h
    simp [mkDataDict, h']

/-- `RegOk` survives an insertion of a classification-correct entry. -/
theorem RegOk_setBinding (r : Registry) (k : String) (v : DeviceEntry)
    (h : RegOk r) (hv : entryClassOk (k, v)) : RegOk (setBinding r k v) := by
  intro q hq
  rcases mem_setBinding r k v q hq with hmem | rfl
  · exact h q hmem
  · exact hv

/-- `RegOk` survives a name update. -/
theorem RegOk_setName (r : Registry) (k n : String) (h : RegOk r) :
    RegOk (setName r k n) := by
  intro q hq
  obtain ⟨p, hp, hk, hdata⟩ := mem_setName r k n q hq
  have := h p hp
  unfold entryClassOk at this ⊢
  rw [hdata]
  exact this

/-- The data-channel loop preserves the classification invariant (for an
accepted class). -/
theorem scanData_RegOk (net : Net) (b i cc : String) (hcc : cc ∈ acceptedClasses) :
    ∀ (l : List String) (count : ℕ) (s : ServerState), RegOk s.devices →
      RegOk ((scanData net b i cc l count s).2).devices := by
  intro l
  induction l with
  | nil =>
      intro count s hs
      simpa [scanData] using hs
  | cons d rest ih =>
      intro count s hs
      by_cases hd : pyIsdigit d
      · simp only [scanData, hd, if_true]
        set did := b ++ "." ++ toString count with hdid
        set s1 : ServerState := { s with devices := setBinding s.devices did ⟨mkDataDict i cc d, none⟩ } with hs1
        have hok1 : RegOk s1.devices :=
          RegOk_setBinding _ _ _ hs (entryClassOk_mkDataDict did i cc d hcc)
        have hsnd := device_type_snd net did s1
        split
        · next e s2 heq =>
            have hs2 : s2 = s1 := by rw [heq] at hsnd; exact hsnd
            rw [hs2]
            exact hok1
        · next dt s2 heq =>
            have hs2 : s2 = s1 := by rw [heq] at hsnd; exact hsnd
            split
            · refine ih _ _ ?_
              exact RegOk_setName _ _ _ (by rw [hs2]; exact hok1)
            · refine ih _ _ ?_
              rw [hs2]
              exact hok1
      · simp only [scanData, hd, if_false]
        exact ih _ _ hs

/-- The command-class loop preserves the classification invariant. -/
theorem scanClasses_RegOk (net : Net) (b i : String) :
    ∀ (cls : InstanceClasses) (count : ℕ) (s : ServerState), RegOk s.devices →
      RegOk ((scanClasses net b i cls count s).2).devices := by
  intro cls
  induction cls with
  | nil =>
      intro count s hs
      simpa [scanClasses] using hs
  | cons p rest ih =>
      intro count s hs
      obtain ⟨cc, dat⟩ := p
      by_cases hcc : cc ∈ acceptedClasses
      · simp only [scanClasses, hcc, if_true]
        split
        · next e s2 heq =>
            have : s2 = ((scanData net b i cc dat count s).2) := by rw [heq]
            rw [this]
            exact scanData_RegOk net b i cc hcc dat count s hs
        · next c2 s2 heq =>
            have : s2 = ((scanData net b i cc dat count s).2) := by rw [heq]
            exact ih _ _ (by rw [this]; exact scanData_RegOk net b i cc hcc dat count s hs)
      · simp only [scanClasses, hcc, if_false]
        exact ih _ _ hs

/-- The instance loop preserves the classification invariant. -/
theorem scanInstances_RegOk (net : Net) (b : String) :
    ∀ (insts : BaseInstances) (count : ℕ) (s : ServerState), RegOk s.devices →
      RegOk ((scanInstances net b insts count s).2).devices := by
  intro insts
  induction insts with
  | nil =>
      intro count s hs
      simpa [scanInstances] using hs
  | cons p rest ih =>
      intro count s hs
      obtain ⟨i, cls⟩ := p
      simp only [scanInstances]
      split
      · next e s2 heq =>
          have : s2 = ((scanClasses net b i cls count s).2) := by rw [heq]
          rw [this]
          exact scanClasses_RegOk net b i cls count s hs
      · next c2 s2 heq =>
          have : s2 = ((scanClasses net b i cls count s).2) := by rw [heq]
          exact ih _ _ (by rw [this]; exact scanClasses_RegOk net b i cls count s hs)

/-- The base-id loop preserves the classification invariant. -/
theorem scanPage_RegOk (net : Net) :
    ∀ (page : DevicesPage) (s : ServerState), RegOk s.devices →
      RegOk ((scanPage net page s).2).devices := by
  intro page
  induction page with
  | nil =>
      intro s hs
      simpa [scanPage] using hs
  | cons p rest ih =>
      intro s hs
      obtain ⟨b, insts⟩ := p
      simp only [scanPage]
      split
      · next e s2 heq =>
          have : s2 = ((scanInstances net b insts 0 s).2) := by rw [heq]
          rw [this]
          exact scanInstances_RegOk net b insts 0 s hs
      · next c2 s2 heq =>
          have : s2 = ((scanInstances net b insts 0 s).2) := by rw [heq]
          exact ih _ (by rw [this]; exact scanInstances_RegOk net b insts 0 s hs)

/-- C6: every entry the scan puts in the registry has an accepted command
class, with class `48` classified boolean\/`level.value` and classes
`49`\/`50` numeric\/`val.value`; and the one-device scenario (base `48`,
instance `0`, class `48`, data index `1`) yields exactly the single entry
`48.0`, boolean with suffix `level.value`. -/
theorem C6_scan_classification (net : Net) (s : ServerState) :
    (∀ p ∈ (update_devices net s).2.devices, entryClassOk p)
    ∧ (update_devices exNetOk (init_state "localhost" 8083 none)).1
        = .ok [("48.0", ⟨⟨"0", "48", "1", "level.value", "bool"⟩, some "48_General_purpose"⟩)] := by
  constructor
  · intro p hp
    simp only [update_devices] at hp
    revert hp
    split
    · intro hp
      simp at hp
    · next page heq =>
        split
        · next e s2 heq2 =>
            intro hp
            have : s2 = ((scanPage net page { s with devices := [] }).2) := by rw [heq2]
            rw [this] at hp
            exact scanPage_RegOk net page { s with devices := [] } (by intro q hq; simp at hq) p hp
        · next r s2 heq2 =>
            intro hp
            have : s2 = ((scanPage net page { s with devices := [] }).2) := by rw [heq2]
            rw [this] at hp
            exact scanPage_RegOk net page { s with devices := [] } (by intro q hq; simp at hq) p hp
  · decide

/-- Witness for C6: the scenario's single entry satisfies the
classification invariant. -/
theorem C6_witness :
    entryClassOk ("48.0", ⟨⟨"0", "48", "1", "level.value", "bool"⟩, some "48_General_purpose"⟩) :=
  (C6_scan_classification exNetOk (init_state "localhost" 8083 none)).1 _ (by decide)

/-! ## C9: the registry's JSON round-trips through an independent parser -/

/-- `hexVal` inverts `hexDigitChar` on digit values. -/
theorem hexVal_hexDigitChar : ∀ k, k < 16 → hexVal (hexDigitChar k) = some k := by
  decide

/-- `hex4Val` inverts the four-digit rendering of any `n < 0x10000`. -/
theorem hex4Val_hex4 (n : ℕ) (h : n < 0x10000) :
    hex4Val (hexDigitChar (n / 4096 % 16)) (hexDigitChar (n / 256 % 16))
      (hexDigitChar (n / 16 % 16)) (hexDigitChar (n % 16)) = some n := by
  have h1 := hexVal_hexDigitChar (n / 4096 % 16) (Nat.mod_lt _ (by norm_num))
  have h2 := hexVal_hexDigitChar (n / 256 % 16) (Nat.mod_lt _ (by norm_num))
  have h3 := hexVal_hexDigitChar (n / 16 % 16) (Nat.mod_lt _ (by norm_num))
  have h4 := hexVal_hexDigitChar (n % 16) (Nat.mod_lt _ (by norm_num))
  simp only [hex4Val, h1, h2, h3, h4, Option.some.injEq]
  omega

/-- A `Char`'s code point is a Unicode scalar value: below the surrogate
range, or above it and below `0x110000`. -/
theorem char_toNat_valid (c : Char) :
    c.toNat < 0xd800 ∨ (0xdfff < c.toNat ∧ c.toNat < 0x110000) := by
  rcases c.valid with h | ⟨h1, h2⟩
  · exact Or.inl h
  · exact Or.inr ⟨h1, h2⟩

/-- `expectChars` consumes exactly its pattern. -/
theorem expectChars_self : ∀ (pat l : List Char), expectChars pat (pat ++ l) = some l := by
  intro pat
  induction pat with
  | nil => intro l; rfl
  | cons c cs ih =>
      intro l
      simp [expectChars, ih]

/-- The parser decodes one escaped character and continues with the rest of
the input. -/
theorem parseStringBody_escapeChar (c : Char) (l : List Char) :
    parseStringBody (escapeChar c ++ l)
      = (parseStringBody l).map (fun p => (c :: p.1, p.2)) := by
  by_cases h1 : c = '\\'
  · subst h1
    simp [escapeChar, parseStringBody, decodeEscape, unescapeShort, List.drop_succ_cons]
  by_cases h2 : c = '"'
  · subst h2
    simp [escapeChar, parseStringBody, decodeEscape, unescapeShort, List.drop_succ_cons]
  by_cases h3 : c.toNat = 8
  · have hc : Char.ofNat 8 = c := by rw [← h3, Char.ofNat_toNat]
    simp [escapeChar, h1, h2, h3, parseStringBody, decodeEscape, unescapeShort,
      List.drop_succ_cons]
    rw [hc]
  by_cases h4 : c.toNat = 9
  · have hc : Char.ofNat 9 = c := by rw [← h4, Char.ofNat_toNat]
    simp [escapeChar, h1, h2, h3, h4, parseStringBody, decodeEscape, unescapeShort,
      List.drop_succ_cons]
    rw [hc]
  by_cases h5 : c.toNat = 10
  · have hc : Char.ofNat 10 = c := by rw [← h5, Char.ofNat_toNat]
    simp [escapeChar, h1, h2, h3, h4, h5, parseStringBody, decodeEscape, unescapeShort,
      List.drop_succ_cons]
    rw [hc]
  by_cases h6 : c.toNat = 12
  · have hc : Char.ofNat 12 = c := by rw [← h6, Char.ofNat_toNat]
    simp [escapeChar, h1, h2, h3, h4, h5, h6, parseStringBody, decodeEscape, unescapeShort,
      List.drop_succ_cons]
    rw [hc]
  by_cases h7 : c.toNat = 13
  · have hc : Char.ofNat 13 = c := by rw [← h7, Char.ofNat_toNat]
    simp [escapeChar, h1, h2, h3, h4, h5, h6, h7, parseStringBody, decodeEscape, unescapeShort,
      List.drop_succ_cons]
    rw [hc]
  by_cases h8 : 0x20 ≤ c.toNat ∧ c.toNat ≤ 0x7e
  · have he : escapeChar c = [c] := by
      simp [escapeChar, h1, h2, h3, h4, h5, h6, h7, h8]
    rw [he]
    simp [parseStringBody, h1, h2]
  by_cases h9 : c.toNat < 0x10000
  · have hval := char_toNat_valid c
    have he : escapeChar c = '\\' :: 'u' :: hex4 c.toNat := by
      simp [escapeChar, h1, h2, h3, h4, h5, h6, h7, h8, h9]
    rw [he]
    simp only [hex4, List.cons_append, List.nil_append]
    have hcond : c.toNat < 0xd800 ∨ 0xe000 ≤ c.toNat := by omega
    simp [parseStringBody, decodeEscape, hex4Val_hex4 _ h9, hcond,
      List.drop_succ_cons, Char.ofNat_toNat]
  · have hval := char_toNat_valid c
    have he : escapeChar c
        = ('\\' :: 'u' :: hex4 (0xd800 + (c.toNat - 0x10000) / 0x400))
          ++ ('\\' :: 'u' :: hex4 (0xdc00 + (c.toNat - 0x10000) % 0x400)) := by
      simp [escapeChar, h1, h2, h3, h4, h5, h6, h7, h8, h9]
    have key : ∀ hi lo : ℕ, hi < 0x10000 → lo < 0x10000 →
        ¬(hi < 0xd800) → ¬(0xe000 ≤ hi) → hi < 0xdc00 → 0xdc00 ≤ lo → lo < 0xe000 →
        Char.ofNat (0x10000 + (hi - 0xd800) * 0x400 + (lo - 0xdc00)) = c →
        parseStringBody ((('\\' :: 'u' :: hex4 hi) ++ ('\\' :: 'u' :: hex4 lo)) ++ l)
          = (parseStringBody l).map (fun p => (c :: p.1, p.2)) := by
      intro hi lo hh1 hh2 hh3 hh4 hh5 hh6 hh7 hh8
      simp only [hex4, List.cons_append, List.nil_append, List.append_assoc]
      simp [parseStringBody, decodeEscape, hex4Val_hex4 _ hh1, hex4Val_hex4 _ hh2,
        hh3, hh4, hh5, hh6, hh7, hh8, List.drop_succ_cons]
    rw [he]
    refine key _ _ (by omega) (by omega) (by omega) (by omega) (by omega) (by omega)
      (by omega) ?_
    rw [show 0x10000 + (0xd800 + (c.toNat - 0x10000) / 0x400 - 0xd800) * 0x400
        + (0xdc00 + (c.toNat - 0x10000) % 0x400 - 0xdc00) = c.toNat from by omega,
      Char.ofNat_toNat]

/-- The parser inverts the escaping of a whole string body. -/
theorem parseStringBody_escape : ∀ (cs : List Char) (l : List Char),
    parseStringBody (cs.flatMap escapeChar ++ '"' :: l) = some (cs, l) := by
  intro cs
  induction cs with
  | nil =>
      intro l
      simp [parseStringBody]
  | cons c cs ih =>
      intro l
      simp only [List.flatMap_cons, List.append_assoc]
      rw [parseStringBody_escapeChar, ih]
      rfl

/-- `parseQuoted` inverts `dumpString`. -/
theorem parseQuoted_dumpString (v : String) (l : List Char) :
    parseQuoted (dumpString v ++ l) = some (v, l) := by
  have h : dumpString v ++ l = '"' :: (v.data.flatMap escapeChar ++ '"' :: l) := by
    simp [dumpString, escapeString]
  rw [h]
  simp only [parseQuoted]
  rw [parseStringBody_escape]
  rfl

/-- `parseStrField` inverts a dumped `"name": "value"` pair (for a key
whose characters need no escaping). -/
theorem parseStrField_dump (name v : String) (l : List Char)
    (hname : escapeString name = name.data) :
    parseStrField name (dumpString name ++ ':' :: ' ' :: (dumpString v ++ l)) = some (v, l) := by
  have hkey : dumpString name ++ ':' :: ' ' :: (dumpString v ++ l)
      = ('"' :: name.data ++ ['"', ':', ' ']) ++ (dumpString v ++ l) := by
    simp [dumpString, hname]
  simp only [parseStrField, expectKey]
  rw [hkey, expectChars_self]
  exact parseQuoted_dumpString v l

/-- `parseDataDict` inverts `dumpDataDict`. -/
theorem parseDataDict_dump (dd : DataDict) (l : List Char) :
    parseDataDict (dumpDataDict dd ++ l) = some (dd, l) := by
  have h1 := fun tail => parseStrField_dump "instance_num" dd.instance_num tail (by decide)
  have h2 := fun tail => parseStrField_dump "command_class" dd.command_class tail (by decide)
  have h3 := fun tail => parseStrField_dump "data_num" dd.data_num tail (by decide)
  have h4 := fun tail => parseStrField_dump "url_suffix" dd.url_suffix tail (by decide)
  have h5 := fun tail => parseStrField_dump "type" dd.type tail (by decide)
  simp only [dumpDataDict, List.append_assoc, List.cons_append, List.nil_append]
  simp [parseDataDict, expectChars, h1, h2, h3, h4, h5]

/-- `expectKey "data"` consumes exactly the dumped key. -/
theorem expectKey_data (Z : List Char) :
    expectKey "data" (dumpString "data" ++ ':' :: ' ' :: Z) = some Z := by
  have hkey : dumpString "data" ++ ':' :: ' ' :: Z
      = ('"' :: "data".data ++ ['"', ':', ' ']) ++ Z := by
    simp [dumpString, (by decide : escapeString "data" = "data".data)]
  rw [expectKey, hkey, expectChars_self]

/-- `parseEntry` inverts `dumpEntry`. -/
theorem parseEntry_dump (e : DeviceEntry) (l : List Char) :
    parseEntry (dumpEntry e ++ l) = some (e, l) := by
  obtain ⟨d, name⟩ := e
  cases name with
  | none =>
      simp only [dumpEntry, List.append_assoc, List.cons_append, List.nil_append]
      simp [parseEntry, expectChars, expectKey_data, parseDataDict_dump]
  | some n =>
      have hn := fun tail => parseStrField_dump "name" n tail (by decide)
      simp only [dumpEntry, List.append_assoc, List.cons_append, List.nil_append]
      simp [parseEntry, expectChars, expectKey_data, parseDataDict_dump, hn]

/-- Every registry member contributes at least one character. -/
theorem length_dumpMembers : ∀ r : Registry, r.length ≤ (dumpMembers r).length := by
  intro r
  induction r with
  | nil => simp [dumpMembers]
  | cons kv rest ih =>
      obtain ⟨k, v⟩ := kv
      have hds : 1 ≤ (dumpString k).length := by simp [dumpString]
      cases rest with
      | nil =>
          simp only [dumpMembers, List.length_append, List.length_cons, List.length_nil]
          omega
      | cons kv2 rest2 =>
          simp only [dumpMembers, List.length_append, List.length_cons, List.length_nil] at ih ⊢
          omega

/-- `parseMembers` inverts `dumpMembers` on a non-empty registry, given
enough fuel, when the remaining input starts with the closing brace. -/
theorem parseMembers_dump : ∀ (r : Registry), r ≠ [] → ∀ (fuel : ℕ), r.length ≤ fuel →
    ∀ tail, parseMembers fuel (dumpMembers r ++ '\x7d' :: tail)
      = some (r, '\x7d' :: tail) := by
  intro r
  induction r with
  | nil =>
      intro h
      exact absurd rfl h
  | cons kv rest ih =>
      intro _ fuel hfuel tail
      obtain ⟨k, v⟩ := kv
      obtain ⟨fuel, rfl⟩ : ∃ f, fuel = f + 1 := ⟨fuel - 1, by simp at hfuel; omega⟩
      cases rest with
      | nil =>
          simp only [dumpMembers, List.append_assoc, List.cons_append, List.nil_append]
          simp [parseMembers, parseQuoted_dumpString, expectChars, parseEntry_dump]
      | cons kv2 rest2 =>
          have hih := ih (by simp) fuel (by simp at hfuel ⊢; omega) tail
          simp only [dumpMembers, List.append_assoc, List.cons_append, List.nil_append] at hih ⊢
          simp [parseMembers, parseQuoted_dumpString, expectChars, parseEntry_dump, hih]

/-- C9: serializing the registry with `save_devices_to_file` and
independently parsing the written JSON text recovers exactly the in-memory
registry — the same device-id keys bound to the same field values, in
order. -/
theorem C9_save_registry_roundtrip (s : ServerState) :
    parseRegistry (save_devices_to_file s) = some s.devices := by
  cases hr : s.devices with
  | nil =>
      simp [save_devices_to_file, parseRegistry, dumpMembers, hr]
  | cons kv rest =>
      have hlen := length_dumpMembers (kv :: rest)
      simp only [save_devices_to_file, hr, parseRegistry]
      split
      · next x l hl =>
          have hl' : l = dumpMembers (kv :: rest) ++ ['\x7d'] := by
            have := hl.symm
            simpa using this
          subst hl'
          split
          · next heq2 =>
              have hcon := congrArg List.length heq2
              simp only [List.length_append, List.length_cons, List.length_nil] at hcon hlen
              omega
          · next =>
              rw [parseMembers_dump (kv :: rest) (by simp) _
                (by simp only [List.length_append, List.length_cons,
                  List.length_nil] at hlen ⊢; omega) []]
              simp
      · next h =>
          exact absurd (by simp) (h (dumpMembers (kv :: rest) ++ ['\x7d']))

end Zway
